import Mathlib

/-!
Shallow embedding of the order-management core of this repository
(`src/server/services/orderService.ts` together with the data shapes of
`src/shared/orders.ts`).  The in-memory service state is a list of orders
(front = most recently inserted) plus a capped list of notifications.
JavaScript numbers holding money amounts are modelled as exact rationals,
strings as Lean strings, and the nondeterministic inputs of the service
(`new Date().toISOString()` and `uuidv4()`) are threaded in as explicit
`now` / `nid` arguments.
-/

namespace OrderSys

/-- The four order statuses of `OrderStatus` in `src/shared/orders.ts`. -/
inductive OrderStatus where
  | pending
  | processing
  | completed
  | cancelled
deriving DecidableEq

/-- The string the status enum denotes in the TypeScript source. -/
def OrderStatus.toStr : OrderStatus → String
  | .pending => "pending"
  | .processing => "processing"
  | .completed => "completed"
  | .cancelled => "cancelled"

/-- Notification `type` values of `NotificationSchema`. -/
inductive NotificationType where
  | order_created
  | order_updated
  | order_completed
  | order_cancelled
deriving DecidableEq

/-- The `Order` entity of `src/shared/orders.ts` (`OrderSchema`). -/
structure Order where
  orderId : String
  customerName : String
  customerEmail : Option String
  orderAmount : ℚ
  orderDate : String
  description : Option String
  status : OrderStatus
  invoiceFileUrl : Option String
  invoiceFileName : Option String
  paymentMethod : Option String
  shippingAddress : Option String
  notes : List String
  createdAt : String
  updatedAt : String
deriving DecidableEq

/-- The `Notification` entity of `src/shared/orders.ts`. -/
structure Notification where
  id : String
  type : NotificationType
  title : String
  message : String
  orderId : String
  timestamp : String
  read : Bool
deriving DecidableEq

/-- `CreateOrderRequest` (`CreateOrderSchema`): fields a client supplies at creation. -/
structure CreateOrderRequest where
  customerName : String
  customerEmail : Option String
  orderAmount : ℚ
  description : Option String
  paymentMethod : Option String
  shippingAddress : Option String
deriving DecidableEq

/-- `UpdateOrderRequest` (`UpdateOrderSchema`): every field optional; absent
fields (`none`) are not present in the parsed payload object. -/
structure UpdateOrderRequest where
  customerName : Option String := none
  customerEmail : Option String := none
  orderAmount : Option ℚ := none
  description : Option String := none
  status : Option OrderStatus := none
  paymentMethod : Option String := none
  shippingAddress : Option String := none
  notes : Option (List String) := none
deriving DecidableEq

/-- The multer file descriptor used by `createOrder` (`filename`, `originalname`). -/
structure FileInfo where
  filename : String
  originalname : String
deriving DecidableEq

/-- The private state of the `OrderService` class: `orders` and `notifications`. -/
structure ServiceState where
  orders : List Order
  notifications : List Notification
deriving DecidableEq

/-- JS `String.prototype.padStart(n, c)`. -/
def jsPadStart (s : String) (n : Nat) (c : Char) : String :=
  String.mk (List.replicate (n - s.length) c) ++ s

/-- Lowercasing as JS `toLowerCase` acts on the ASCII data this system stores. -/
def jsToLower (s : String) : String :=
  String.mk (s.data.map Char.toLower)

/-- Whether `sub` starts the sequence `l`. -/
def startsWithSeq : List Char → List Char → Bool
  | [], _ => true
  | _ :: _, [] => false
  | a :: as, b :: bs => a == b && startsWithSeq as bs

/-- Substring test: `containsSeq sub l` is true iff `sub` occurs contiguously
inside `l`. -/
def containsSeq (sub : List Char) : List Char → Bool
  | [] => sub.isEmpty
  | c :: rest => startsWithSeq sub (c :: rest) || containsSeq sub rest

/-- JS `hay.includes(sub)` on strings. -/
def jsIncludes (hay sub : String) : Bool :=
  containsSeq sub.data hay.data

/-- Days since the Unix epoch of a civil date (year ≥ 1, month 1-12, day 1-31),
used to model what `Date.parse` computes on the ISO-8601 UTC strings this
system stores; out-of-range fields give `none` (an invalid date, i.e. NaN). -/
def daysFromCivil (y mo d : Nat) : Option Int :=
  if mo < 1 || 12 < mo || d < 1 || 31 < d || y == 0 then none
  else
    let y' := if mo ≤ 2 then y - 1 else y
    let mp := (mo + 9) % 12
    some ((365 * y' + y' / 4 - y' / 100 + y' / 400 + (153 * mp + 2) / 5 + (d - 1) : Nat)
      - (719468 : Int))

/-- `String.splitOn` for a single-character separator, over character lists
(structural recursion, so concrete dates evaluate inside the kernel). -/
def splitOnChar (sep : Char) : List Char → List (List Char)
  | [] => [[]]
  | c :: rest =>
    if c == sep then [] :: splitOnChar sep rest
    else
      match splitOnChar sep rest with
      | [] => [[c]]
      | g :: gs => (c :: g) :: gs

/-- The numeric value of an ASCII digit, `none` for any other character. -/
def digitVal? (c : Char) : Option Nat :=
  if 48 ≤ c.toNat && c.toNat ≤ 57 then some (c.toNat - 48) else none

/-- Base-10 accumulation over digit characters; `none` on any non-digit. -/
def digitsToNatAux : List Char → Nat → Option Nat
  | [], acc => some acc
  | c :: rest, acc =>
    match digitVal? c with
    | some d => digitsToNatAux rest (acc * 10 + d)
    | none => none

/-- All-digit numeral parse (as `String.toNat?`): `none` when empty or when
any character is not a digit. -/
def digitsToNat? : List Char → Option Nat
  | [] => none
  | c :: rest => digitsToNatAux (c :: rest) 0

/-- Milliseconds denoted by the fractional-seconds digits of an ISO timestamp
(`"5"` ↦ 500, `"05"` ↦ 50, `"500"` ↦ 500). -/
def fracMs (l : List Char) : Option Nat :=
  if l.isEmpty then none else digitsToNat? ((l ++ ['0', '0', '0']).take 3)

/-- Model of JS `Date.parse` on the `YYYY-MM-DDTHH:MM:SS[.fff]Z` strings this
system produces (sample data and `new Date().toISOString()`): milliseconds
since the Unix epoch, `none` for anything that does not parse (NaN). -/
def jsDateMs (s : String) : Option Int :=
  match splitOnChar 'T' s.data with
  | [d, t] =>
    (match splitOnChar '-' d with
     | [ys, ms, ds] =>
       (match digitsToNat? ys, digitsToNat? ms, digitsToNat? ds with
        | some y, some mo, some da =>
          (match t.getLast? with
           | some 'Z' =>
             (match splitOnChar ':' t.dropLast with
              | [hs, mins, secs] =>
                (match splitOnChar '.' secs with
                 | [ss] =>
                   (match digitsToNat? hs, digitsToNat? mins, digitsToNat? ss with
                    | some h, some mi, some sec =>
                      if h > 23 || mi > 59 || sec > 59 then none
                      else (daysFromCivil y mo da).map fun days =>
                        days * 86400000 + (h * 3600000 + mi * 60000 + sec * 1000 : Nat)
                    | _, _, _ => none)
                 | [ss, fs] =>
                   (match digitsToNat? hs, digitsToNat? mins, digitsToNat? ss, fracMs fs with
                    | some h, some mi, some sec, some mil =>
                      if h > 23 || mi > 59 || sec > 59 then none
                      else (daysFromCivil y mo da).map fun days =>
                        days * 86400000 + (h * 3600000 + mi * 60000 + sec * 1000 + mil : Nat)
                    | _, _, _, _ => none)
                 | _ => none)
              | _ => none)
           | _ => none)
        | _, _, _ => none)
     | _ => none)
  | _ => none

/-- JS `new Date(a) >= new Date(b)`; comparisons against an invalid date (NaN)
are false. -/
def jsDateGe (a b : String) : Bool :=
  match jsDateMs a, jsDateMs b with
  | some x, some y => y ≤ x
  | _, _ => false

/-- JS `new Date(a) <= new Date(b)`; comparisons against an invalid date (NaN)
are false. -/
def jsDateLe (a b : String) : Bool :=
  match jsDateMs a, jsDateMs b with
  | some x, some y => x ≤ y
  | _, _ => false

/-- The notification-ring cap of `createNotification`: after an `unshift`, keep
only the first 100 entries. -/
def capNotifications (l : List Notification) : List Notification :=
  if l.length > 100 then l.take 100 else l

/-- The data a caller of `createNotification` supplies (id, timestamp and the
`read := false` default are filled in by the service). -/
structure NotificationData where
  type : NotificationType
  title : String
  message : String
  orderId : String

/-- `createNotification`: build the notification (fresh id `nid`, timestamp
`ts`, unread), `unshift` it, and trim the ring to 100 entries. -/
def createNotification (st : ServiceState) (nid ts : String) (d : NotificationData) :
    ServiceState :=
  let n : Notification :=
    { id := nid, type := d.type, title := d.title, message := d.message,
      orderId := d.orderId, timestamp := ts, read := false }
  { st with notifications := capNotifications (n :: st.notifications) }

/-- The seed note `createOrder` writes into a fresh order. -/
def seedNote : String := "Order received and awaiting confirmation"

/-- `createOrder`: id `ORD-` + zero-padded `orders.length + 1`, status
`pending`, seed note, `orderDate = createdAt = updatedAt = now`, `unshift`
into the store, and one `order_created` notification. -/
def createOrder (st : ServiceState) (orderData : CreateOrderRequest)
    (invoiceFile : Option FileInfo) (now nid : String) : Order × ServiceState :=
  let orderId := "ORD-" ++ jsPadStart (toString (st.orders.length + 1)) 3 '0'
  let newOrder : Order :=
    { orderId := orderId
      customerName := orderData.customerName
      customerEmail := orderData.customerEmail
      orderAmount := orderData.orderAmount
      orderDate := now
      description := orderData.description
      status := .pending
      invoiceFileUrl := invoiceFile.map (fun f => "/uploads/invoices/" ++ f.filename)
      invoiceFileName := invoiceFile.map (fun f => f.originalname)
      paymentMethod := orderData.paymentMethod
      shippingAddress := orderData.shippingAddress
      notes := [seedNote]
      createdAt := now
      updatedAt := now }
  let st1 : ServiceState := { st with orders := newOrder :: st.orders }
  let st2 := createNotification st1 nid now
    { type := .order_created
      title := "New Order Created"
      message := "Order " ++ orderId ++ " has been created for " ++ orderData.customerName
      orderId := orderId }
  (newOrder, st2)

/-- The `sortBy` values of `OrderQuerySchema`. -/
inductive SortField where
  | orderId
  | customerName
  | orderAmount
  | orderDate
  | status
deriving DecidableEq

/-- The `sortOrder` values of `OrderQuerySchema`. -/
inductive SortOrder where
  | asc
  | desc
deriving DecidableEq

/-- A parsed `OrderQuery` (after zod defaults, so `page`, `limit`, `sortBy`
and `sortOrder` are always present). -/
structure OrderQuery where
  page : Nat
  limit : Nat
  status : Option OrderStatus := none
  search : Option String := none
  sortBy : SortField
  sortOrder : SortOrder
  dateFrom : Option String := none
  dateTo : Option String := none
deriving DecidableEq

/-- The status filter of `getOrders`: keep orders whose status equals the
requested one (`if (query.status) … filter(order.status === query.status)`). -/
def statusStage (qs : Option OrderStatus) (l : List Order) : List Order :=
  match qs with
  | some s => l.filter (fun o => o.status == s)
  | none => l

/-- The body of the search-filter lambda in `getOrders`: any one of a
case-insensitive substring match on id, name, or (when present) email. -/
def matchesSearch (searchLower : String) (o : Order) : Bool :=
  jsIncludes (jsToLower o.orderId) searchLower ||
  jsIncludes (jsToLower o.customerName) searchLower ||
  (match o.customerEmail with
   | some e => jsIncludes (jsToLower e) searchLower
   | none => false)

/-- The search filter of `getOrders` (`if (query.search)` — an empty search
string is falsy in JS and skips the stage). -/
def searchStage (qs : Option String) (l : List Order) : List Order :=
  match qs with
  | some s => if s.isEmpty then l else l.filter (matchesSearch (jsToLower s))
  | none => l

/-- The `dateFrom` filter of `getOrders`. -/
def dateFromStage (qd : Option String) (l : List Order) : List Order :=
  match qd with
  | some d => if d.isEmpty then l else l.filter (fun o => jsDateGe o.orderDate d)
  | none => l

/-- The `dateTo` filter of `getOrders`. -/
def dateToStage (qd : Option String) (l : List Order) : List Order :=
  match qd with
  | some d => if d.isEmpty then l else l.filter (fun o => jsDateLe o.orderDate d)
  | none => l

/-- All four filter stages of `getOrders`, in source order. -/
def filterOrders (q : OrderQuery) (l : List Order) : List Order :=
  dateToStage q.dateTo (dateFromStage q.dateFrom (searchStage q.search (statusStage q.status l)))

/-- Strict lexicographic comparison of character sequences by code point:
JS `a < b` on the (ASCII) strings this system stores. -/
def charsLt : List Char → List Char → Bool
  | _, [] => false
  | [], _ :: _ => true
  | a :: as, b :: bs => a.toNat < b.toNat || (a.toNat == b.toNat && charsLt as bs)

/-- JS `a < b` on strings. -/
def strLt (a b : String) : Bool :=
  charsLt a.data b.data

/-- JS `a < b` on numbers (order amounts). -/
def ratLt (a b : ℚ) : Bool :=
  decide (a < b)

/-- Three-way comparison from a strict order, as the comparator body in
`getOrders` computes it (`comparison = 0`, `-1` when `a < b`, `1` when
`a > b`). -/
def cmpOfLt {α : Type} (ltb : α → α → Bool) (a b : α) : Int :=
  if ltb a b then -1 else if ltb b a then 1 else 0

/-- The JS `<`/`>` comparison of `a[query.sortBy]` and `b[query.sortBy]`:
lexical on the string-valued fields (including the ISO `orderDate` strings and
the status enum strings), numeric on `orderAmount`. -/
def fieldCmp (f : SortField) (a b : Order) : Int :=
  match f with
  | .orderId => cmpOfLt strLt a.orderId b.orderId
  | .customerName => cmpOfLt strLt a.customerName b.customerName
  | .orderAmount => cmpOfLt ratLt a.orderAmount b.orderAmount
  | .orderDate => cmpOfLt strLt a.orderDate b.orderDate
  | .status => cmpOfLt strLt a.status.toStr b.status.toStr

/-- The full comparator passed to `sort`: the field comparison, negated when
`sortOrder` is not `"asc"`. -/
def queryCmp (q : OrderQuery) (a b : Order) : Int :=
  match q.sortOrder with
  | .asc => fieldCmp q.sortBy a b
  | .desc => -(fieldCmp q.sortBy a b)

/-- `queryLe q a b` iff the comparator does not order `a` after `b`; a stable
sort by this relation is exactly what JS `Array.prototype.sort` (stable per
ES2019) produces from the comparator. -/
def queryLe (q : OrderQuery) (a b : Order) : Bool :=
  decide (queryCmp q a b ≤ 0)

/-- The sort step of `getOrders`: a stable sort by the query comparator. -/
def sortOrders (q : OrderQuery) (l : List Order) : List Order :=
  l.mergeSort (queryLe q)

/-- `getOrders`: filter, sort, then paginate with
`start = (page-1)*limit`, `slice(start, start+limit)`; the returned total is
the post-filter, pre-pagination count. -/
def getOrders (st : ServiceState) (q : OrderQuery) : List Order × Nat :=
  let filtered := sortOrders q (filterOrders q st.orders)
  let total := filtered.length
  let startIndex := (q.page - 1) * q.limit
  ((filtered.drop startIndex).take q.limit, total)

/-- `getOrderById`: first order with the given id, if any. -/
def getOrderById (st : ServiceState) (oid : String) : Option Order :=
  st.orders.find? (fun o => o.orderId == oid)

/-- The audit note `updateOrder` appends on a status change. -/
def statusNote (old next : OrderStatus) : String :=
  "Status changed from " ++ old.toStr ++ " to " ++ next.toStr

/-- The merged order `updateOrder` builds:
`{ ...existingOrder, ...updateData, updatedAt: now }` (absent payload fields
keep the stored value), then, when a differing status is supplied, `notes`
overwritten with the previous stored notes plus the status-change note. -/
def mkUpdatedOrder (o : Order) (u : UpdateOrderRequest) (now : String) : Order :=
  let base : Order :=
    { o with
      customerName := u.customerName.getD o.customerName
      customerEmail := match u.customerEmail with | some e => some e | none => o.customerEmail
      orderAmount := u.orderAmount.getD o.orderAmount
      description := match u.description with | some d => some d | none => o.description
      status := u.status.getD o.status
      paymentMethod := match u.paymentMethod with | some p => some p | none => o.paymentMethod
      shippingAddress := match u.shippingAddress with | some s => some s | none => o.shippingAddress
      notes := u.notes.getD o.notes
      updatedAt := now }
  match u.status with
  | some s =>
    if s ≠ o.status then { base with notes := o.notes ++ [statusNote o.status s] } else base
  | none => base

/-- `findIndex`-then-replace of `updateOrder`, as structural recursion: locate
the first order with the given id, and return the existing order, its updated
version, and the store with that position overwritten. -/
def replaceFirst (oid : String) (u : UpdateOrderRequest) (now : String) :
    List Order → Option (Order × Order × List Order)
  | [] => none
  | o :: rest =>
    if o.orderId == oid then
      let upd := mkUpdatedOrder o u now
      some (o, upd, upd :: rest)
    else
      match replaceFirst oid u now rest with
      | none => none
      | some (ex, upd, rest') => some (ex, upd, o :: rest')

/-- `updateOrder`: not-found leaves the state untouched and returns `none`;
otherwise store the merged order and, exactly when a differing status was
supplied, emit one `order_updated` notification. -/
def updateOrder (st : ServiceState) (oid : String) (u : UpdateOrderRequest)
    (now nid : String) : Option Order × ServiceState :=
  match replaceFirst oid u now st.orders with
  | none => (none, st)
  | some (ex, upd, orders') =>
    let st1 : ServiceState := { st with orders := orders' }
    let st2 :=
      match u.status with
      | some s =>
        if s ≠ ex.status then
          createNotification st1 nid now
            { type := .order_updated
              title := "Order Status Updated"
              message := "Order " ++ oid ++ " status changed to " ++ s.toStr
              orderId := oid }
        else st1
      | none => st1
    (some upd, st2)

/-- `findIndex`-then-`splice` of `deleteOrder`: remove the first order with
the given id, `none` when absent. -/
def removeFirst (oid : String) : List Order → Option (List Order)
  | [] => none
  | o :: rest =>
    if o.orderId == oid then some rest
    else (removeFirst oid rest).map (fun r => o :: r)

/-- `deleteOrder`: `false` and untouched state when the id is absent. -/
def deleteOrder (st : ServiceState) (oid : String) : Bool × ServiceState :=
  match removeFirst oid st.orders with
  | none => (false, st)
  | some orders' => (true, { st with orders := orders' })

/-- The four scalar aggregates of `getAnalytics` (the fields the claims are
about).  `reduce((sum, order) => sum + order.orderAmount, 0)` is a left fold
from `0`. -/
structure AnalyticsCore where
  totalOrders : Nat
  totalRevenue : ℚ
  averageOrderValue : ℚ
  completionRate : ℚ
deriving DecidableEq

/-- `getAnalytics` (scalar part): revenue sums completed orders only, the
average divides by the total order count, completion rate is a percentage. -/
def getAnalytics (st : ServiceState) : AnalyticsCore :=
  let totalOrders := st.orders.length
  let completedOrders := st.orders.filter (fun o => o.status == .completed)
  let totalRevenue := completedOrders.foldl (fun sum o => sum + o.orderAmount) 0
  let averageOrderValue : ℚ := if totalOrders > 0 then totalRevenue / (totalOrders : ℚ) else 0
  let completionRate : ℚ :=
    if totalOrders > 0 then ((completedOrders.length : ℚ) / (totalOrders : ℚ)) * 100 else 0
  { totalOrders := totalOrders
    totalRevenue := totalRevenue
    averageOrderValue := averageOrderValue
    completionRate := completionRate }

/-- Sample order `ORD-001` of `initializeSampleData`. -/
def sampleOrder1 : Order :=
  { orderId := "ORD-001"
    customerName := "John Smith"
    customerEmail := some "john.smith@email.com"
    orderAmount := 1299.99
    orderDate := "2024-01-15T10:30:00Z"
    description := some "High-performance laptop with extended warranty"
    status := .completed
    invoiceFileUrl := some "/uploads/invoices/invoice-001.pdf"
    invoiceFileName := some "invoice-001.pdf"
    paymentMethod := some "Credit Card (**** 4242)"
    shippingAddress := some "123 Main St, Springfield, IL 62701, USA"
    notes := ["Order received and confirmed",
              "Payment processed successfully",
              "Items prepared for shipping",
              "Order shipped via FedEx Express",
              "Delivered successfully"]
    createdAt := "2024-01-15T10:30:00Z"
    updatedAt := "2024-01-18T16:45:00Z" }

/-- Sample order `ORD-002` of `initializeSampleData`. -/
def sampleOrder2 : Order :=
  { orderId := "ORD-002"
    customerName := "Sarah Johnson"
    customerEmail := some "sarah.j@email.com"
    orderAmount := 599.50
    orderDate := "2024-01-14T14:20:00Z"
    description := some "Professional camera kit"
    status := .processing
    invoiceFileUrl := some "/uploads/invoices/invoice-002.pdf"
    invoiceFileName := some "invoice-002.pdf"
    paymentMethod := some "PayPal"
    shippingAddress := some "456 Oak Ave, Boston, MA 02101, USA"
    notes := ["Order received and confirmed",
              "Payment processed successfully",
              "Items being prepared for shipping"]
    createdAt := "2024-01-14T14:20:00Z"
    updatedAt := "2024-01-15T09:15:00Z" }

/-- Sample order `ORD-003` of `initializeSampleData`. -/
def sampleOrder3 : Order :=
  { orderId := "ORD-003"
    customerName := "Mike Davis"
    customerEmail := some "mike.davis@email.com"
    orderAmount := 2150.00
    orderDate := "2024-01-13T09:15:00Z"
    description := some "Premium gaming setup with accessories"
    status := .pending
    invoiceFileUrl := some "/uploads/invoices/invoice-003.pdf"
    invoiceFileName := some "invoice-003.pdf"
    paymentMethod := some "Bank Transfer"
    shippingAddress := some "789 Pine Rd, Seattle, WA 98101, USA"
    notes := ["Order received and awaiting payment confirmation"]
    createdAt := "2024-01-13T09:15:00Z"
    updatedAt := "2024-01-13T09:15:00Z" }

/-- Sample order `ORD-004` of `initializeSampleData`. -/
def sampleOrder4 : Order :=
  { orderId := "ORD-004"
    customerName := "Emily Wilson"
    customerEmail := some "emily.w@email.com"
    orderAmount := 799.99
    orderDate := "2024-01-12T16:45:00Z"
    description := some "Smart home automation bundle"
    status := .completed
    invoiceFileUrl := some "/uploads/invoices/invoice-004.pdf"
    invoiceFileName := some "invoice-004.pdf"
    paymentMethod := some "Credit Card (**** 1234)"
    shippingAddress := some "321 Cedar St, Denver, CO 80201, USA"
    notes := ["Order received and confirmed",
              "Payment processed successfully",
              "Items shipped and delivered"]
    createdAt := "2024-01-12T16:45:00Z"
    updatedAt := "2024-01-14T10:20:00Z" }

/-- Sample order `ORD-005` of `initializeSampleData`. -/
def sampleOrder5 : Order :=
  { orderId := "ORD-005"
    customerName := "David Brown"
    customerEmail := some "david.brown@email.com"
    orderAmount := 1599.00
    orderDate := "2024-01-11T11:30:00Z"
    description := some "Professional audio equipment"
    status := .cancelled
    invoiceFileUrl := some "/uploads/invoices/invoice-005.pdf"
    invoiceFileName := some "invoice-005.pdf"
    paymentMethod := some "Credit Card (**** 5678)"
    shippingAddress := some "654 Birch Ave, Austin, TX 73301, USA"
    notes := ["Order received",
              "Customer requested cancellation",
              "Refund processed"]
    createdAt := "2024-01-11T11:30:00Z"
    updatedAt := "2024-01-12T14:15:00Z" }

/-- The state the `OrderService` constructor builds (`initializeSampleData`
plus the empty notification ring). -/
def initialState : ServiceState :=
  { orders := [sampleOrder1, sampleOrder2, sampleOrder3, sampleOrder4, sampleOrder5]
    notifications := [] }

/-- The non-strict ordering the code's comparator actually applies to a sort
field's values: JS `<` on the raw field values, i.e. lexical (code-point)
order on the string-valued fields and numeric order on `orderAmount`.  For
`orderDate` this is the lexical order of the raw ISO-8601 strings, which is
NOT chronological order in general: across the two precisions this store
holds, `"…T10:30:00.500Z"` sorts lexically before `"…T10:30:00Z"` although
it denotes a later instant (see `orderDate_sort_not_chronological`).
`a` not-after `b` is the absence of a strict `b < a`. -/
def fieldNativeLe (f : SortField) (a b : Order) : Prop :=
  match f with
  | .orderId => strLt b.orderId a.orderId = false
  | .customerName => strLt b.customerName a.customerName = false
  | .orderAmount => a.orderAmount ≤ b.orderAmount
  | .orderDate => strLt b.orderDate a.orderDate = false
  | .status => strLt b.status.toStr a.status.toStr = false

/-- A minimal order used to exercise the lifecycle operations at concrete
inputs. -/
def wOrder : Order :=
  { orderId := "A-1"
    customerName := "Nina"
    customerEmail := none
    orderAmount := 5
    orderDate := "2024-03-01T00:00:00Z"
    description := none
    status := .pending
    invoiceFileUrl := none
    invoiceFileName := none
    paymentMethod := none
    shippingAddress := none
    notes := ["n0"]
    createdAt := "2024-03-01T00:00:00Z"
    updatedAt := "2024-03-01T00:00:00Z" }

/-- A second minimal order with the same amount as `wOrder` (a sort-key tie). -/
def wOrderB : Order :=
  { wOrder with
    orderId := "B-1"
    customerName := "Omar"
    orderDate := "2024-03-02T00:00:00Z"
    createdAt := "2024-03-02T00:00:00Z"
    updatedAt := "2024-03-02T00:00:00Z" }

/-- A one-order store for concrete lifecycle runs. -/
def wState : ServiceState :=
  { orders := [wOrder], notifications := [] }

/-- A two-order store (amount tie between the two orders). -/
def wState2 : ServiceState :=
  { orders := [wOrderB, wOrder], notifications := [] }

/-- An update payload carrying only a replacement `notes` array. -/
def cexNotesUpdate : UpdateOrderRequest :=
  { notes := some [] }

/-- An update payload touching a non-status, non-notes field. -/
def wTouchUpdate : UpdateOrderRequest :=
  { customerName := some "Mara" }

/-- An update payload supplying a differing status only. -/
def wStatusUpdate : UpdateOrderRequest :=
  { status := some .processing }

/-- An update payload supplying both a differing status and a `notes` array. -/
def wBothUpdate : UpdateOrderRequest :=
  { status := some .processing, notes := some ["client note"] }

/-- A valid create request used for concrete runs. -/
def wCreateReq : CreateOrderRequest :=
  { customerName := "Alice"
    customerEmail := none
    orderAmount := 10
    description := none
    paymentMethod := none
    shippingAddress := none }

/-- An amount-ascending query over everything (page 1, large page). -/
def wAmountQuery : OrderQuery :=
  { page := 1, limit := 10, sortBy := .orderAmount, sortOrder := .asc }

/-- An order dated with the seeded second-precision ISO format; it denotes
the instant 2024-01-15T10:30:00.000Z. -/
def cexDateOrderA : Order :=
  { wOrder with orderId := "D-A", orderDate := "2024-01-15T10:30:00Z" }

/-- An order dated with the `toISOString()` millisecond format; it denotes
the instant 2024-01-15T10:30:00.500Z, 500 ms after `cexDateOrderA`'s. -/
def cexDateOrderB : Order :=
  { wOrder with orderId := "D-B", orderDate := "2024-01-15T10:30:00.500Z" }

/-- A store mixing the two `orderDate` formats the system produces. -/
def cexDateState : ServiceState :=
  { orders := [cexDateOrderB, cexDateOrderA], notifications := [] }

/-- An ascending-by-`orderDate` query over everything. -/
def cexDateQuery : OrderQuery :=
  { page := 1, limit := 10, sortBy := .orderDate, sortOrder := .asc }

/-! ### Order-theoretic facts about the comparators -/

theorem charsLt_irrefl : ∀ l : List Char, charsLt l l = false
  | [] => rfl
  | a :: as => by simp [charsLt, charsLt_irrefl as]

theorem charsLt_trans (a : List Char) : ∀ (b c : List Char),
    charsLt a b = true → charsLt b c = true → charsLt a c = true := by
  induction a with
  | nil =>
    intro b c h1 h2
    cases b with
    | nil => simp [charsLt] at h1
    | cons bh bt =>
      cases c with
      | nil => simp [charsLt] at h2
      | cons ch ct => simp [charsLt]
  | cons ah atl ih =>
    intro b c h1 h2
    cases b with
    | nil => simp [charsLt] at h1
    | cons bh bt =>
      cases c with
      | nil => simp [charsLt] at h2
      | cons ch ct =>
        simp only [charsLt, Bool.or_eq_true, Bool.and_eq_true, decide_eq_true_eq,
          beq_iff_eq] at h1 h2 ⊢
        rcases h1 with h1 | ⟨e1, r1⟩
        · rcases h2 with h2 | ⟨e2, r2⟩
          · exact Or.inl (by omega)
          · exact Or.inl (by omega)
        · rcases h2 with h2 | ⟨e2, r2⟩
          · exact Or.inl (by omega)
          · exact Or.inr ⟨by omega, ih bt ct r1 r2⟩

theorem charsLt_asymm {a b : List Char} (h : charsLt a b = true) : charsLt b a = false := by
  by_contra hba
  rw [Bool.not_eq_false] at hba
  have := charsLt_trans a b a h hba
  rw [charsLt_irrefl] at this
  exact Bool.false_ne_true this

theorem charsLt_cotrans (c : List Char) : ∀ (a b : List Char),
    charsLt c a = true → charsLt c b = true ∨ charsLt b a = true := by
  induction c with
  | nil =>
    intro a b h
    cases a with
    | nil => simp [charsLt] at h
    | cons ah atl =>
      cases b with
      | nil => exact Or.inr (by simp [charsLt])
      | cons bh bt => exact Or.inl (by simp [charsLt])
  | cons ch ct ih =>
    intro a b h
    cases a with
    | nil => simp [charsLt] at h
    | cons ah atl =>
      cases b with
      | nil => exact Or.inr (by simp [charsLt])
      | cons bh bt =>
        simp only [charsLt, Bool.or_eq_true, Bool.and_eq_true, decide_eq_true_eq,
          beq_iff_eq] at h ⊢
        rcases Nat.lt_trichotomy ch.toNat bh.toNat with hc | hc | hc
        · exact Or.inl (Or.inl hc)
        · rcases h with h | ⟨e, r⟩
          · exact Or.inr (Or.inl (by omega))
          · rcases ih atl bt r with hr | hr
            · exact Or.inl (Or.inr ⟨hc, hr⟩)
            · exact Or.inr (Or.inr ⟨by omega, hr⟩)
        · rcases h with h | ⟨e, r⟩
          · exact Or.inr (Or.inl (by omega))
          · exact Or.inr (Or.inl (by omega))

theorem strLt_asymm {a b : String} (h : strLt a b = true) : strLt b a = false :=
  charsLt_asymm h

theorem strLt_leB_trans {a b c : String}
    (h1 : strLt b a = false) (h2 : strLt c b = false) : strLt c a = false := by
  by_contra hca
  rw [Bool.not_eq_false] at hca
  rcases charsLt_cotrans c.data a.data b.data hca with h | h
  · rw [strLt] at h2; rw [h2] at h; exact Bool.false_ne_true h
  · rw [strLt] at h1; rw [h1] at h; exact Bool.false_ne_true h

theorem ratLt_asymm {a b : ℚ} (h : ratLt a b = true) : ratLt b a = false := by
  simp only [ratLt, decide_eq_true_eq] at h
  simp only [ratLt, decide_eq_false_iff_not]
  exact not_lt_of_gt h

theorem ratLt_leB_trans {a b c : ℚ}
    (h1 : ratLt b a = false) (h2 : ratLt c b = false) : ratLt c a = false := by
  simp only [ratLt, decide_eq_false_iff_not, not_lt] at h1 h2 ⊢
  exact h1.trans h2

theorem cmpOfLt_neg {α : Type} (ltb : α → α → Bool)
    (asymm : ∀ a b, ltb a b = true → ltb b a = false) (a b : α) :
    cmpOfLt ltb a b = -(cmpOfLt ltb b a) := by
  unfold cmpOfLt
  cases hab : ltb a b with
  | true => rw [asymm a b hab]; simp
  | false =>
    cases hba : ltb b a with
    | true => simp
    | false => simp

theorem cmpOfLt_nonpos_iff {α : Type} (ltb : α → α → Bool)
    (asymm : ∀ a b, ltb a b = true → ltb b a = false) (a b : α) :
    cmpOfLt ltb a b ≤ 0 ↔ ltb b a = false := by
  unfold cmpOfLt
  cases hab : ltb a b with
  | true => simp [asymm a b hab]
  | false =>
    cases hba : ltb b a with
    | true => simp
    | false => simp

theorem fieldCmp_neg (f : SortField) (a b : Order) : fieldCmp f a b = -(fieldCmp f b a) := by
  cases f with
  | orderId =>
    simp only [fieldCmp]
    exact cmpOfLt_neg strLt (fun _ _ h => strLt_asymm h) _ _
  | customerName =>
    simp only [fieldCmp]
    exact cmpOfLt_neg strLt (fun _ _ h => strLt_asymm h) _ _
  | orderAmount =>
    simp only [fieldCmp]
    exact cmpOfLt_neg ratLt (fun _ _ h => ratLt_asymm h) _ _
  | orderDate =>
    simp only [fieldCmp]
    exact cmpOfLt_neg strLt (fun _ _ h => strLt_asymm h) _ _
  | status =>
    simp only [fieldCmp]
    exact cmpOfLt_neg strLt (fun _ _ h => strLt_asymm h) _ _

theorem fieldCmp_nonpos_iff (f : SortField) (a b : Order) :
    fieldCmp f a b ≤ 0 ↔ fieldNativeLe f a b := by
  cases f with
  | orderId =>
    simp only [fieldCmp, fieldNativeLe]
    exact cmpOfLt_nonpos_iff strLt (fun _ _ h => strLt_asymm h) _ _
  | customerName =>
    simp only [fieldCmp, fieldNativeLe]
    exact cmpOfLt_nonpos_iff strLt (fun _ _ h => strLt_asymm h) _ _
  | orderAmount =>
    simp only [fieldCmp, fieldNativeLe]
    rw [cmpOfLt_nonpos_iff ratLt (fun _ _ h => ratLt_asymm h)]
    simp [ratLt, not_lt]
  | orderDate =>
    simp only [fieldCmp, fieldNativeLe]
    exact cmpOfLt_nonpos_iff strLt (fun _ _ h => strLt_asymm h) _ _
  | status =>
    simp only [fieldCmp, fieldNativeLe]
    exact cmpOfLt_nonpos_iff strLt (fun _ _ h => strLt_asymm h) _ _

theorem fieldNativeLe_trans (f : SortField) {a b c : Order}
    (h1 : fieldNativeLe f a b) (h2 : fieldNativeLe f b c) : fieldNativeLe f a c := by
  cases f with
  | orderId => exact strLt_leB_trans h1 h2
  | customerName => exact strLt_leB_trans h1 h2
  | orderAmount => exact le_trans h1 h2
  | orderDate => exact strLt_leB_trans h1 h2
  | status => exact strLt_leB_trans h1 h2

theorem queryCmp_neg (q : OrderQuery) (a b : Order) : queryCmp q a b = -(queryCmp q b a) := by
  cases ho : q.sortOrder with
  | asc => simp only [queryCmp, ho]; exact fieldCmp_neg _ _ _
  | desc => simp only [queryCmp, ho]; rw [fieldCmp_neg q.sortBy a b]

theorem queryLe_asc_iff {q : OrderQuery} (ho : q.sortOrder = .asc) (a b : Order) :
    queryLe q a b = true ↔ fieldNativeLe q.sortBy a b := by
  simp only [queryLe, queryCmp, ho, decide_eq_true_eq]
  exact fieldCmp_nonpos_iff _ _ _

theorem queryLe_desc_iff {q : OrderQuery} (ho : q.sortOrder = .desc) (a b : Order) :
    queryLe q a b = true ↔ fieldNativeLe q.sortBy b a := by
  simp only [queryLe, queryCmp, ho, decide_eq_true_eq]
  rw [fieldCmp_neg q.sortBy a b, neg_neg]
  exact fieldCmp_nonpos_iff _ _ _

theorem queryLe_trans (q : OrderQuery) (a b c : Order)
    (h1 : queryLe q a b = true) (h2 : queryLe q b c = true) : queryLe q a c = true := by
  cases ho : q.sortOrder with
  | asc =>
    rw [queryLe_asc_iff ho] at h1 h2 ⊢
    exact fieldNativeLe_trans _ h1 h2
  | desc =>
    rw [queryLe_desc_iff ho] at h1 h2 ⊢
    exact fieldNativeLe_trans _ h2 h1

theorem queryLe_total (q : OrderQuery) (a b : Order) :
    (queryLe q a b || queryLe q b a) = true := by
  rw [Bool.or_eq_true]
  simp only [queryLe, decide_eq_true_eq]
  rw [queryCmp_neg q a b]
  omega

theorem queryLe_of_cmp_eq_zero {q : OrderQuery} {a b : Order}
    (h : fieldCmp q.sortBy a b = 0) : queryLe q a b = true := by
  simp only [queryLe, queryCmp, decide_eq_true_eq]
  cases q.sortOrder <;> simp [h]

/-! ### Pagination -/

theorem ceil_div_succ (k len : Nat) (hk : 1 ≤ k) (hlen : 1 ≤ len) :
    (len + k - 1) / k = ((len - k) + k - 1) / k + 1 := by
  rcases le_or_lt k len with h | h
  · have e : len + k - 1 = ((len - k) + k - 1) + k := by omega
    rw [e, Nat.add_div_right _ (by omega)]
  · have e1 : len - k = 0 := by omega
    have e2 : (0 + k - 1) / k = 0 := Nat.div_eq_of_lt (by omega)
    rw [e1, e2]
    exact Nat.div_eq_of_lt_le (by omega) (by omega)

theorem pages_flatten {α : Type} (k : Nat) (hk : 1 ≤ k) :
    ∀ (n : Nat) (l : List α), l.length ≤ n →
      ((List.range ((l.length + k - 1) / k)).map (fun i => (l.drop (i * k)).take k)).flatten
        = l := by
  intro n
  induction n with
  | zero =>
    intro l hl
    have hnil : l = [] := List.eq_nil_of_length_eq_zero (Nat.le_zero.mp hl)
    subst hnil
    rw [show (([] : List α).length + k - 1) / k = 0 from Nat.div_eq_of_lt (by simp; omega)]
    simp
  | succ n ih =>
    intro l hl
    cases l with
    | nil =>
      rw [show (([] : List α).length + k - 1) / k = 0 from Nat.div_eq_of_lt (by simp; omega)]
      simp
    | cons a tl =>
      have hlen1 : 1 ≤ (a :: tl).length := by simp
      have hdrop : ((a :: tl).drop k).length = (a :: tl).length - k := by
        simp [List.length_drop]
      rw [show ((a :: tl).length + k - 1) / k
            = ((((a :: tl).drop k).length + k - 1) / k) + 1 by
          rw [hdrop]; exact ceil_div_succ k (a :: tl).length hk hlen1]
      rw [List.range_succ_eq_map]
      rw [List.map_cons, List.map_map, List.flatten_cons]
      have hmap : ∀ i : Nat, ((fun i => ((a :: tl).drop (i * k)).take k) ∘ Nat.succ) i
          = (fun i => (((a :: tl).drop k).drop (i * k)).take k) i := by
        intro i
        simp only [Function.comp_apply]
        rw [List.drop_drop]
        congr 2
        simp [Nat.succ_mul]
        omega
      rw [show ((List.range ((((a :: tl).drop k).length + k - 1) / k)).map
              ((fun i => ((a :: tl).drop (i * k)).take k) ∘ Nat.succ))
            = ((List.range ((((a :: tl).drop k).length + k - 1) / k)).map
              (fun i => (((a :: tl).drop k).drop (i * k)).take k)) from
          List.map_congr_left (fun i _ => hmap i)]
      rw [ih ((a :: tl).drop k)
          (by rw [hdrop]; simp only [List.length_cons] at hl ⊢; omega)]
      simp

/-! ### Lifecycle helper lemmas -/

theorem mkUpdatedOrder_updatedAt (o : Order) (u : UpdateOrderRequest) (now : String) :
    (mkUpdatedOrder o u now).updatedAt = now := by
  unfold mkUpdatedOrder
  cases u.status with
  | none => rfl
  | some s =>
    by_cases h : s ≠ o.status
    · simp [h]
    · simp [h]

theorem mkUpdatedOrder_notes_of_status_ne (o : Order) (u : UpdateOrderRequest) (now : String)
    (s : OrderStatus) (hs : u.status = some s) (hne : s ≠ o.status) :
    (mkUpdatedOrder o u now).notes = o.notes ++ [statusNote o.status s] := by
  unfold mkUpdatedOrder
  rw [hs]
  simp [hne]

theorem mkUpdatedOrder_notes_unchanged (o : Order) (u : UpdateOrderRequest) (now : String)
    (hn : u.notes = none) (hst : u.status = none ∨ u.status = some o.status) :
    (mkUpdatedOrder o u now).notes = o.notes := by
  unfold mkUpdatedOrder
  rcases hst with hst | hst <;> rw [hst] <;> simp [hn]

theorem replaceFirst_eq_none (oid : String) (u : UpdateOrderRequest) (now : String) :
    ∀ l : List Order, (∀ o ∈ l, o.orderId ≠ oid) → replaceFirst oid u now l = none := by
  intro l h
  induction l with
  | nil => rfl
  | cons o rest ih =>
    have h0 : (o.orderId == oid) = false := by
      simpa using h o (by simp)
    have ht : replaceFirst oid u now rest = none :=
      ih (fun o' ho' => h o' (by simp [ho']))
    simp [replaceFirst, h0, ht]

theorem replaceFirst_some (oid : String) (u : UpdateOrderRequest) (now : String) :
    ∀ (l : List Order) (ex upd : Order) (l' : List Order),
      replaceFirst oid u now l = some (ex, upd, l') →
      upd = mkUpdatedOrder ex u now ∧ ex.orderId = oid := by
  intro l
  induction l with
  | nil => intro ex upd l' h; simp [replaceFirst] at h
  | cons o rest ih =>
    intro ex upd l' h
    by_cases hb : (o.orderId == oid) = true
    · rw [replaceFirst, if_pos hb] at h
      simp only [Option.some.injEq, Prod.mk.injEq] at h
      obtain ⟨h1, h2, -⟩ := h
      constructor
      · rw [← h2, ← h1]
      · rw [← h1]; exact eq_of_beq hb
    · rw [replaceFirst, if_neg hb] at h
      cases hr : replaceFirst oid u now rest with
      | none => rw [hr] at h; simp at h
      | some trip =>
        obtain ⟨ex0, upd0, rest0⟩ := trip
        rw [hr] at h
        simp only [Option.some.injEq, Prod.mk.injEq] at h
        obtain ⟨he, hu, -⟩ := h
        obtain ⟨ih1, ih2⟩ := ih ex0 upd0 rest0 hr
        exact ⟨by rw [← he, ← hu]; exact ih1, by rw [← he]; exact ih2⟩

theorem replaceFirst_forall2 (oid : String) (u : UpdateOrderRequest) (now : String)
    (R : Order → Order → Prop)
    (hrefl : ∀ o, R o o) (hupd : ∀ o, R o (mkUpdatedOrder o u now)) :
    ∀ (l : List Order) (ex upd : Order) (l' : List Order),
      replaceFirst oid u now l = some (ex, upd, l') → List.Forall₂ R l l' := by
  intro l
  induction l with
  | nil => intro ex upd l' h; simp [replaceFirst] at h
  | cons o rest ih =>
    intro ex upd l' h
    by_cases hb : (o.orderId == oid) = true
    · rw [replaceFirst, if_pos hb] at h
      simp only [Option.some.injEq, Prod.mk.injEq] at h
      obtain ⟨-, -, h3⟩ := h
      rw [← h3]
      exact List.Forall₂.cons (hupd o) (List.forall₂_same.mpr (fun x _ => hrefl x))
    · rw [replaceFirst, if_neg hb] at h
      cases hr : replaceFirst oid u now rest with
      | none => rw [hr] at h; simp at h
      | some trip =>
        obtain ⟨ex0, upd0, rest0⟩ := trip
        rw [hr] at h
        simp only [Option.some.injEq, Prod.mk.injEq] at h
        obtain ⟨-, -, h3⟩ := h
        rw [← h3]
        exact List.Forall₂.cons (hrefl o) (ih ex0 upd0 rest0 hr)

theorem removeFirst_eq_none (oid : String) :
    ∀ l : List Order, (∀ o ∈ l, o.orderId ≠ oid) → removeFirst oid l = none := by
  intro l h
  induction l with
  | nil => rfl
  | cons o rest ih =>
    have h0 : (o.orderId == oid) = false := by
      simpa using h o (by simp)
    have ht : removeFirst oid rest = none :=
      ih (fun o' ho' => h o' (by simp [ho']))
    simp [removeFirst, h0, ht]

/-! ### Substring bridge -/

theorem startsWithSeq_iff (sub : List Char) :
    ∀ l : List Char, startsWithSeq sub l = true ↔ sub <+: l := by
  induction sub with
  | nil =>
    intro l
    constructor
    · intro _
      exact ⟨l, rfl⟩
    · intro _
      rfl
  | cons a as ih =>
    intro l
    cases l with
    | nil =>
      rw [startsWithSeq]
      constructor
      · intro h
        exact absurd h Bool.false_ne_true
      · intro h
        obtain ⟨t, ht⟩ := h
        simp at ht
    | cons b bs =>
      rw [startsWithSeq, Bool.and_eq_true, beq_iff_eq]
      rw [List.cons_prefix_cons]
      exact and_congr Iff.rfl (ih bs)

theorem containsSeq_iff (sub : List Char) :
    ∀ l : List Char, containsSeq sub l = true ↔ sub <:+: l := by
  intro l
  induction l with
  | nil =>
    rw [containsSeq]
    constructor
    · intro h
      rw [List.isEmpty_iff] at h
      rw [h]
    · intro h
      rw [List.isEmpty_iff]
      exact List.eq_nil_of_infix_nil h
  | cons c rest ih =>
    rw [containsSeq, Bool.or_eq_true]
    constructor
    · intro h
      rcases h with h | h
      · obtain ⟨t, ht⟩ := (startsWithSeq_iff sub (c :: rest)).mp h
        exact ⟨[], t, by rw [List.nil_append, ht]⟩
      · obtain ⟨s, t, hst⟩ := ih.mp h
        exact ⟨c :: s, t, by rw [List.cons_append, List.cons_append, hst]⟩
    · intro h
      rcases List.infix_cons_iff.mp h with h | h
      · exact Or.inl ((startsWithSeq_iff sub (c :: rest)).mpr h)
      · exact Or.inr (ih.mpr h)

theorem updateOrder_found (st : ServiceState) (oid : String) (u : UpdateOrderRequest)
    (now nid : String) (ex upd : Order) (l' : List Order) (s : OrderStatus)
    (hr : replaceFirst oid u now st.orders = some (ex, upd, l'))
    (hs : u.status = some s) (hne : s ≠ ex.status) :
    updateOrder st oid u now nid =
      (some upd,
        { orders := l',
          notifications := capNotifications
            ({ id := nid, type := .order_updated, title := "Order Status Updated",
               message := "Order " ++ oid ++ " status changed to " ++ s.toStr,
               orderId := oid, timestamp := now, read := false } :: st.notifications) }) := by
  simp only [updateOrder, hr, hs]
  rw [if_pos hne]
  rfl

/-! ### Claim theorems -/

/-- Claim C4: every create produces an order with status `pending`, exactly the
single seed note, `createdAt = updatedAt` (both the creation instant), inserts
it at the front of the store's iteration order, and emits exactly one
`order_created` notification referencing the new order's id. -/
theorem createOrder_spec (st : ServiceState) (req : CreateOrderRequest)
    (file : Option FileInfo) (now nid : String) :
    (createOrder st req file now nid).1.status = .pending ∧
    (createOrder st req file now nid).1.notes = ["Order received and awaiting confirmation"] ∧
    (createOrder st req file now nid).1.createdAt = (createOrder st req file now nid).1.updatedAt ∧
    (createOrder st req file now nid).1.createdAt = now ∧
    (createOrder st req file now nid).2.orders = (createOrder st req file now nid).1 :: st.orders ∧
    (createOrder st req file now nid).2.notifications =
      capNotifications
        ({ id := nid, type := .order_created, title := "New Order Created",
           message := "Order " ++ (createOrder st req file now nid).1.orderId ++
             " has been created for " ++ req.customerName,
           orderId := (createOrder st req file now nid).1.orderId,
           timestamp := now, read := false } :: st.notifications) :=
  ⟨rfl, rfl, rfl, rfl, rfl, rfl⟩

/-- Claim C1 (refuted by the code): `createOrder` derives the new id from the
current store length, so after deleting `ORD-001` from the seeded store the
next create is assigned `ORD-005`, which still names the remaining seeded
order — the store then holds two orders with the same `orderId`. -/
theorem create_after_delete_reuses_existing_id :
    (createOrder (deleteOrder initialState "ORD-001").2 wCreateReq none
        "2026-10-11T00:00:00.000Z" "nid-1").1.orderId = "ORD-005" ∧
    List.countP (fun o => o.orderId == "ORD-005") initialState.orders = 1 ∧
    List.countP (fun o => o.orderId == "ORD-005")
      ((createOrder (deleteOrder initialState "ORD-001").2 wCreateReq none
        "2026-10-11T00:00:00.000Z" "nid-1").2.orders) = 2 := by
  decide

/-- Claim C2, counterexample: an update payload may carry a `notes` array
(allowed by `UpdateOrderSchema`); the object-spread in `updateOrder` then
replaces the stored notes even though the payload omits `status`, so the
stored note list of `A-1` shrinks from `["n0"]` to `[]`. -/
theorem update_payload_notes_replace_stored_notes :
    cexNotesUpdate.status = none ∧
    wState.orders.map (fun o => o.notes) = [["n0"]] ∧
    (updateOrder wState "A-1" cexNotesUpdate "2024-03-02T00:00:00Z" "nid-1").2.orders.map
        (fun o => o.notes) = [[]] := by
  decide

/-- Claim C2, amended: for every update whose payload omits `notes`, each
stored order's notes only grow by appending (the old list is a prefix of the
new one), and when additionally `status` is omitted or equals the order's
current status, the notes are exactly unchanged. -/
theorem update_append_only_without_payload_notes (st : ServiceState) (oid : String)
    (u : UpdateOrderRequest) (now nid : String) (hn : u.notes = none) :
    List.Forall₂
      (fun o o' => o.notes <+: o'.notes ∧
        ((u.status = none ∨ u.status = some o.status) → o'.notes = o.notes))
      st.orders (updateOrder st oid u now nid).2.orders := by
  cases hr : replaceFirst oid u now st.orders with
  | none =>
    simp only [updateOrder, hr]
    exact List.forall₂_same.mpr (fun o _ => ⟨List.prefix_refl _, fun _ => rfl⟩)
  | some trip =>
    obtain ⟨ex, upd, l'⟩ := trip
    have h2 : (updateOrder st oid u now nid).2.orders = l' := by
      simp only [updateOrder, hr]
      cases hu : u.status with
      | none => rfl
      | some s =>
        by_cases hne : s ≠ ex.status
        · simp [hne, createNotification]
        · simp [hne]
    rw [h2]
    apply replaceFirst_forall2 oid u now _ ?_ ?_ st.orders ex upd l' hr
    · intro o
      exact ⟨List.prefix_refl _, fun _ => rfl⟩
    · intro o
      constructor
      · cases hu : u.status with
        | none =>
          rw [mkUpdatedOrder_notes_unchanged o u now hn (Or.inl hu)]
        | some s =>
          by_cases hne : s = o.status
          · rw [mkUpdatedOrder_notes_unchanged o u now hn (Or.inr (by rw [hu, hne]))]
          · rw [mkUpdatedOrder_notes_of_status_ne o u now s hu hne]
            exact List.prefix_append _ _
      · intro hst
        exact mkUpdatedOrder_notes_unchanged o u now hn hst

/-- Witness for the amended C2 at a concrete store and payload. -/
theorem update_append_only_witness :
    List.Forall₂
      (fun o o' => o.notes <+: o'.notes ∧
        ((wTouchUpdate.status = none ∨ wTouchUpdate.status = some o.status) →
          o'.notes = o.notes))
      wState.orders (updateOrder wState "A-1" wTouchUpdate "T1" "nid-1").2.orders :=
  update_append_only_without_payload_notes wState "A-1" wTouchUpdate "T1" "nid-1" rfl

/-- Claim C9: an update or delete that names an id absent from the store
returns the not-found signal, mutates nothing, and emits no notification. -/
theorem notFound_no_mutation (st : ServiceState) (oid : String) (u : UpdateOrderRequest)
    (now nid : String) (h : ∀ o ∈ st.orders, o.orderId ≠ oid) :
    updateOrder st oid u now nid = (none, st) ∧
    deleteOrder st oid = (false, st) ∧
    (deleteOrder st oid).2.orders.length = st.orders.length := by
  have h1 := replaceFirst_eq_none oid u now st.orders h
  have h2 := removeFirst_eq_none oid st.orders h
  refine ⟨?_, ?_, ?_⟩
  · simp [updateOrder, h1]
  · simp [deleteOrder, h2]
  · simp [deleteOrder, h2]

/-- Witness for C9 at a concrete store and an absent id. -/
theorem notFound_no_mutation_witness :
    updateOrder wState "ZZZ" wTouchUpdate "T1" "nid-1" = (none, wState) ∧
    deleteOrder wState "ZZZ" = (false, wState) ∧
    (deleteOrder wState "ZZZ").2.orders.length = wState.orders.length :=
  notFound_no_mutation wState "ZZZ" wTouchUpdate "T1" "nid-1" (by decide)

/-- Claim C3: an update of an existing order supplying a status different
from the current one appends exactly one note — the status-change note, which
becomes the last entry — emits exactly one `order_updated` notification, and
stamps `updatedAt` with the update time; moreover every successful update
(status change or not) stamps `updatedAt`. -/
theorem update_status_change_spec (st : ServiceState) (oid now nid : String) :
    (∀ (u : UpdateOrderRequest) (s : OrderStatus) (ex upd : Order) (l' : List Order),
      u.status = some s → s ≠ ex.status →
      replaceFirst oid u now st.orders = some (ex, upd, l') →
      upd.notes = ex.notes ++ [statusNote ex.status s] ∧
      upd.notes.length = ex.notes.length + 1 ∧
      upd.notes.getLast? = some (statusNote ex.status s) ∧
      upd.updatedAt = now ∧
      (updateOrder st oid u now nid).1 = some upd ∧
      (updateOrder st oid u now nid).2.notifications =
        capNotifications
          ({ id := nid, type := .order_updated, title := "Order Status Updated",
             message := "Order " ++ oid ++ " status changed to " ++ s.toStr,
             orderId := oid, timestamp := now, read := false } :: st.notifications)) ∧
    (∀ (u : UpdateOrderRequest) (ex upd : Order) (l' : List Order),
      replaceFirst oid u now st.orders = some (ex, upd, l') → upd.updatedAt = now) := by
  constructor
  · intro u s ex upd l' hs hne hr
    obtain ⟨hupd, -⟩ := replaceFirst_some oid u now st.orders ex upd l' hr
    have hnotes : upd.notes = ex.notes ++ [statusNote ex.status s] := by
      rw [hupd]; exact mkUpdatedOrder_notes_of_status_ne ex u now s hs hne
    have hfound := updateOrder_found st oid u now nid ex upd l' s hr hs hne
    refine ⟨hnotes, ?_, ?_, ?_, ?_, ?_⟩
    · rw [hnotes]; simp
    · rw [hnotes]; exact List.getLast?_concat _
    · rw [hupd]; exact mkUpdatedOrder_updatedAt ex u now
    · rw [hfound]
    · rw [hfound]
  · intro u ex upd l' hr
    obtain ⟨hupd, -⟩ := replaceFirst_some oid u now st.orders ex upd l' hr
    rw [hupd]
    exact mkUpdatedOrder_updatedAt ex u now

/-- Witness for C3: updating `A-1` from `pending` to `processing`. -/
theorem update_status_change_witness :
    (mkUpdatedOrder wOrder wStatusUpdate "T1").notes =
        wOrder.notes ++ [statusNote wOrder.status .processing] ∧
    (mkUpdatedOrder wOrder wStatusUpdate "T1").notes.length = wOrder.notes.length + 1 ∧
    (mkUpdatedOrder wOrder wStatusUpdate "T1").notes.getLast? =
        some (statusNote wOrder.status .processing) ∧
    (mkUpdatedOrder wOrder wStatusUpdate "T1").updatedAt = "T1" ∧
    (updateOrder wState "A-1" wStatusUpdate "T1" "nid-1").1 =
        some (mkUpdatedOrder wOrder wStatusUpdate "T1") ∧
    (updateOrder wState "A-1" wStatusUpdate "T1" "nid-1").2.notifications =
      capNotifications
        ({ id := "nid-1", type := .order_updated, title := "Order Status Updated",
           message := "Order " ++ "A-1" ++ " status changed to " ++
             OrderStatus.toStr .processing,
           orderId := "A-1", timestamp := "T1", read := false } :: wState.notifications) :=
  (update_status_change_spec wState "A-1" "T1" "nid-1").1 wStatusUpdate .processing wOrder
    (mkUpdatedOrder wOrder wStatusUpdate "T1") [mkUpdatedOrder wOrder wStatusUpdate "T1"]
    rfl (by decide) rfl

/-- Claim C10: when an update payload carries both a `notes` array and a
differing `status`, the stored notes become the previous stored notes plus the
status-change note — the payload's notes array is discarded entirely. -/
theorem update_discards_payload_notes (st : ServiceState) (oid now nid : String)
    (u : UpdateOrderRequest) (s : OrderStatus) (ns : List String) (ex upd : Order)
    (l' : List Order) (hs : u.status = some s) (hn : u.notes = some ns)
    (hne : s ≠ ex.status) (hr : replaceFirst oid u now st.orders = some (ex, upd, l')) :
    upd.notes = ex.notes ++ [statusNote ex.status s] ∧
    (updateOrder st oid u now nid).2.orders = l' := by
  obtain ⟨hupd, -⟩ := replaceFirst_some oid u now st.orders ex upd l' hr
  constructor
  · rw [hupd]
    exact mkUpdatedOrder_notes_of_status_ne ex u now s hs hne
  · rw [updateOrder_found st oid u now nid ex upd l' s hr hs hne]

/-- Witness for C10: a payload with both `notes` and a differing status. -/
theorem update_discards_payload_notes_witness :
    (mkUpdatedOrder wOrder wBothUpdate "T1").notes =
        wOrder.notes ++ [statusNote wOrder.status .processing] ∧
    (updateOrder wState "A-1" wBothUpdate "T1" "nid-1").2.orders =
        [mkUpdatedOrder wOrder wBothUpdate "T1"] :=
  update_discards_payload_notes wState "A-1" "T1" "nid-1" wBothUpdate .processing
    ["client note"] wOrder (mkUpdatedOrder wOrder wBothUpdate "T1")
    [mkUpdatedOrder wOrder wBothUpdate "T1"] rfl rfl (by decide) rfl

/-- Claim C5: `total` is the post-filter, pre-pagination count, the returned
page is the `limit`-sized slice starting at `(page-1)*limit` of the
filtered-and-sorted sequence, and the pages for `page = 1 .. ceil(total/limit)`
concatenate to exactly that sequence (no duplicates, no omissions). -/
theorem getOrders_pagination (st : ServiceState) (q : OrderQuery)
    (hp : 1 ≤ q.page) (hl : 1 ≤ q.limit) (hl100 : q.limit ≤ 100) :
    (getOrders st q).2 = (sortOrders q (filterOrders q st.orders)).length ∧
    (getOrders st q).1 =
      ((sortOrders q (filterOrders q st.orders)).drop ((q.page - 1) * q.limit)).take q.limit ∧
    ((List.range (((sortOrders q (filterOrders q st.orders)).length + q.limit - 1)
          / q.limit)).map
        (fun i => ((sortOrders q (filterOrders q st.orders)).drop (i * q.limit)).take
          q.limit)).flatten
      = sortOrders q (filterOrders q st.orders) := by
  refine ⟨rfl, rfl, ?_⟩
  exact pages_flatten q.limit hl (sortOrders q (filterOrders q st.orders)).length
    (sortOrders q (filterOrders q st.orders)) le_rfl

/-- Witness for C5 at a concrete store and query. -/
theorem getOrders_pagination_witness :
    (getOrders wState2 wAmountQuery).2 =
      (sortOrders wAmountQuery (filterOrders wAmountQuery wState2.orders)).length ∧
    (getOrders wState2 wAmountQuery).1 =
      ((sortOrders wAmountQuery (filterOrders wAmountQuery wState2.orders)).drop
        ((wAmountQuery.page - 1) * wAmountQuery.limit)).take wAmountQuery.limit ∧
    ((List.range
          (((sortOrders wAmountQuery (filterOrders wAmountQuery wState2.orders)).length +
              wAmountQuery.limit - 1) / wAmountQuery.limit)).map
        (fun i =>
          ((sortOrders wAmountQuery (filterOrders wAmountQuery wState2.orders)).drop
            (i * wAmountQuery.limit)).take wAmountQuery.limit)).flatten
      = sortOrders wAmountQuery (filterOrders wAmountQuery wState2.orders) :=
  getOrders_pagination wState2 wAmountQuery (by decide) (by decide) (by decide)

/-- Claim C6, counterexample to "chronological for orderDate": the system
stores `orderDate` in two formats (seeded `…T10:30:00Z`, and
`toISOString()`'s `…T10:30:00.500Z`), and the code sorts the raw strings
lexically (`'.' < 'Z'`), so the ascending-by-`orderDate` sort places the
chronologically later order (instant 1705314600500) before the earlier one
(instant 1705314600000): the output is not sorted by parsed instant. -/
theorem orderDate_sort_not_chronological :
    cexDateQuery.sortBy = SortField.orderDate ∧
    cexDateQuery.sortOrder = SortOrder.asc ∧
    filterOrders cexDateQuery cexDateState.orders = [cexDateOrderB, cexDateOrderA] ∧
    sortOrders cexDateQuery (filterOrders cexDateQuery cexDateState.orders)
      = [cexDateOrderB, cexDateOrderA] ∧
    jsDateMs cexDateOrderB.orderDate = some 1705314600500 ∧
    jsDateMs cexDateOrderA.orderDate = some 1705314600000 ∧
    (1705314600000 : Int) < 1705314600500 := by
  have hf : filterOrders cexDateQuery cexDateState.orders
      = [cexDateOrderB, cexDateOrderA] := rfl
  refine ⟨rfl, rfl, hf, ?_, by decide, by decide, by decide⟩
  rw [sortOrders, hf]
  apply List.mergeSort_of_sorted
  refine List.Pairwise.cons ?_ (List.pairwise_singleton _ _)
  intro a ha
  rw [List.mem_singleton] at ha
  subst ha
  decide

/-- Claim C6, amended: the query result is sorted by the `sortBy` field under
the ordering the code's comparator applies — JS `<` on the raw field values,
i.e. lexical (code-point) order on the string-valued fields, including the
raw ISO `orderDate` strings (this agrees with chronological order only while
all stored timestamps share one format, and diverges across the two formats
the system produces — see `orderDate_sort_not_chronological`), numeric on
`orderAmount` — reversed for `desc`; the sort is a permutation of the
filtered input and is stable (a pair tied on that sort key keeps its relative
store order); in particular amounts are non-decreasing for
`orderAmount`/`asc` and non-increasing for `orderAmount`/`desc`. -/
theorem getOrders_sorted_spec (st : ServiceState) (q : OrderQuery) :
    (sortOrders q (filterOrders q st.orders)).Perm (filterOrders q st.orders) ∧
    (q.sortOrder = .asc →
      (sortOrders q (filterOrders q st.orders)).Pairwise (fieldNativeLe q.sortBy)) ∧
    (q.sortOrder = .desc →
      (sortOrders q (filterOrders q st.orders)).Pairwise
        (fun a b => fieldNativeLe q.sortBy b a)) ∧
    (∀ a b : Order, fieldCmp q.sortBy a b = 0 →
      [a, b].Sublist (filterOrders q st.orders) →
      [a, b].Sublist (sortOrders q (filterOrders q st.orders))) ∧
    (q.sortBy = .orderAmount → q.sortOrder = .asc →
      (sortOrders q (filterOrders q st.orders)).Pairwise
        (fun a b => a.orderAmount ≤ b.orderAmount)) ∧
    (q.sortBy = .orderAmount → q.sortOrder = .desc →
      (sortOrders q (filterOrders q st.orders)).Pairwise
        (fun a b => b.orderAmount ≤ a.orderAmount)) := by
  have hPW : (sortOrders q (filterOrders q st.orders)).Pairwise
      (fun a b => queryLe q a b = true) :=
    List.sorted_mergeSort (queryLe_trans q) (queryLe_total q) (filterOrders q st.orders)
  have hasc : q.sortOrder = .asc →
      (sortOrders q (filterOrders q st.orders)).Pairwise (fieldNativeLe q.sortBy) := by
    intro ho
    exact hPW.imp (fun hab => (queryLe_asc_iff ho _ _).mp hab)
  have hdesc : q.sortOrder = .desc →
      (sortOrders q (filterOrders q st.orders)).Pairwise
        (fun a b => fieldNativeLe q.sortBy b a) := by
    intro ho
    exact hPW.imp (fun hab => (queryLe_desc_iff ho _ _).mp hab)
  refine ⟨List.mergeSort_perm _ _, hasc, hdesc, ?_, ?_, ?_⟩
  · intro a b hcmp hsub
    exact List.pair_sublist_mergeSort (queryLe_trans q) (queryLe_total q)
      (queryLe_of_cmp_eq_zero hcmp) hsub
  · intro hf ho
    exact (hasc ho).imp (fun {a b} hab => by rw [hf] at hab; exact hab)
  · intro hf ho
    exact (hdesc ho).imp (fun {a b} hab => by rw [hf] at hab; exact hab)

/-- Witness for C6: a tied-amount store sorted ascending by amount. -/
theorem getOrders_sorted_witness :
    (sortOrders wAmountQuery (filterOrders wAmountQuery wState2.orders)).Pairwise
      (fun a b => a.orderAmount ≤ b.orderAmount) ∧
    [wOrderB, wOrder].Sublist
      (sortOrders wAmountQuery (filterOrders wAmountQuery wState2.orders)) :=
  ⟨(getOrders_sorted_spec wState2 wAmountQuery).2.2.2.2.1 rfl rfl,
   (getOrders_sorted_spec wState2 wAmountQuery).2.2.2.1 wOrderB wOrder (by decide)
     (List.Sublist.refl _)⟩

theorem matchesSearch_iff (sl : String) (o : Order) :
    matchesSearch sl o = true ↔
      (sl.data <:+: (jsToLower o.orderId).data ∨
       sl.data <:+: (jsToLower o.customerName).data ∨
       (∃ e, o.customerEmail = some e ∧ sl.data <:+: (jsToLower e).data)) := by
  unfold matchesSearch jsIncludes
  rw [Bool.or_eq_true, Bool.or_eq_true]
  rw [containsSeq_iff, containsSeq_iff]
  cases he : o.customerEmail with
  | none => simp
  | some e => simp [containsSeq_iff, or_assoc]

/-- Claim C7: an order passes the search filter exactly when the lowercased
search term occurs as a substring of the lowercased `orderId`, of the
lowercased `customerName`, or — only when `customerEmail` is present — of the
lowercased email; an order with no email never matches through the email
field.  (An empty search term is falsy in JS and skips the filter, and the
equivalence holds there too since the empty string is a substring of
everything.) -/
theorem searchStage_mem_iff (s : String) (l : List Order) (o : Order) :
    o ∈ searchStage (some s) l ↔
      (o ∈ l ∧
        ((jsToLower s).data <:+: (jsToLower o.orderId).data ∨
         (jsToLower s).data <:+: (jsToLower o.customerName).data ∨
         (∃ e, o.customerEmail = some e ∧
            (jsToLower s).data <:+: (jsToLower e).data))) := by
  by_cases hse : s.isEmpty
  · have hs0 : s = "" := (String.isEmpty_iff s).mp hse
    subst hs0
    have hnil : (jsToLower "").data = [] := rfl
    simp [searchStage, hse, hnil]
  · rw [show searchStage (some s) l = l.filter (matchesSearch (jsToLower s)) by
      simp [searchStage, hse]]
    rw [List.mem_filter, matchesSearch_iff]

/-- Claim C8: analytics sums revenue over completed orders only, divides the
average by the total order count (not the completed count), computes the
completion rate as a percentage, and on the seeded five-order example yields
`totalRevenue = 2099.98`, `totalOrders = 5`, `completionRate = 40`. -/
theorem getAnalytics_spec (st : ServiceState) :
    (getAnalytics st).totalOrders = st.orders.length ∧
    (getAnalytics st).totalRevenue =
      ((st.orders.filter (fun o => o.status == .completed)).map
        (fun o => o.orderAmount)).sum ∧
    (0 < st.orders.length →
      (getAnalytics st).averageOrderValue =
        (getAnalytics st).totalRevenue / (st.orders.length : ℚ) ∧
      (getAnalytics st).completionRate =
        (((st.orders.filter (fun o => o.status == .completed)).length : ℚ) /
          (st.orders.length : ℚ)) * 100) ∧
    (getAnalytics initialState).totalRevenue = 2099.98 ∧
    (getAnalytics initialState).totalOrders = 5 ∧
    (getAnalytics initialState).completionRate = 40 := by
  refine ⟨rfl, ?_, ?_, ?_, rfl, ?_⟩
  · rw [List.sum_eq_foldl, List.foldl_map]
    rfl
  · intro h
    constructor
    · simp only [getAnalytics]
      rw [if_pos h]
    · simp only [getAnalytics]
      rw [if_pos h]
  · simp [getAnalytics, initialState, sampleOrder1, sampleOrder2, sampleOrder3,
      sampleOrder4, sampleOrder5]
    norm_num
  · simp [getAnalytics, initialState, sampleOrder1, sampleOrder2, sampleOrder3,
      sampleOrder4, sampleOrder5]
    norm_num

/-- Witness for C8's conditional part at a concrete non-empty store. -/
theorem getAnalytics_spec_witness :
    (getAnalytics wState).averageOrderValue =
      (getAnalytics wState).totalRevenue / (wState.orders.length : ℚ) ∧
    (getAnalytics wState).completionRate =
      (((wState.orders.filter (fun o => o.status == .completed)).length : ℚ) /
        (wState.orders.length : ℚ)) * 100 :=
  (getAnalytics_spec wState).2.2.1 (by decide)

end OrderSys
